import Mathlib

/-!
Verification of the `conway-errors` library core (`src/index.ts`).

The development shallowly embeds the library: JavaScript objects used as
extended-params bags become association lists with spread (`{...a, ...b}`)
semantics, the per-invocation synthesis of error subclasses is modelled by
an allocation token supplied to each root-context instantiation, and the
only side effects of the core — invocations of the configured `handleEmit`
sink — are made explicit as lists of `SinkCall` records returned by the
operations that can perform them.
-/

namespace Conway

/-- Model of a JavaScript runtime value, sufficient for what the library
inspects: the `originalError` cause (tested only for truthiness) and the
values stored in extended-params objects.  `object id` stands for an
arbitrary object reference (plain objects, `Error` instances, ...), all of
which are truthy. -/
inductive JSVal where
  | undefined : JSVal
  | null : JSVal
  | boolean : Bool → JSVal
  | number : Int → JSVal
  | str : String → JSVal
  | object : Nat → JSVal
  deriving DecidableEq, Repr

/-- JavaScript truthiness of a `JSVal` (`NaN` is not modelled since the
library never produces one). -/
def truthy : JSVal → Bool
  | JSVal.undefined => false
  | JSVal.null => false
  | JSVal.boolean b => b
  | JSVal.number n => decide (n ≠ 0)
  | JSVal.str s => decide (s ≠ "")
  | JSVal.object _ => true

/-- `ExtendedParams` (`Record<string, unknown>`): a JavaScript object used as
a key/value bag, modelled as an insertion-ordered association list. -/
abbrev ExtendedParams := List (String × JSVal)

/-- Assignment of one property, as performed for each key by an object
spread: an existing key keeps its position and gets the new value, a new
key is appended at the end.  This is exactly JavaScript's property-set
order semantics. -/
def setKey {α : Type} : List (String × α) → String → α → List (String × α)
  | [], k, v => [(k, v)]
  | (k0, v0) :: rest, k, v =>
      if k0 = k then (k0, v) :: rest else (k0, v0) :: setKey rest k v

/-- Property lookup on an object modelled as an association list. -/
def getKey {α : Type} : List (String × α) → String → Option α
  | [], _ => none
  | (k0, v0) :: rest, k => if k0 = k then some v0 else getKey rest k

/-- `{...a, ...b}`: spread `b` over `a`, the keys of `b` overriding those of
`a` (last writer wins per key). -/
def spread2 : ExtendedParams → ExtendedParams → ExtendedParams
  | a, [] => a
  | a, (k, v) :: rest => spread2 (setKey a k v) rest

/-- `{...a, ...b}` where `b` may be `undefined`/absent (spreading
`undefined` is a no-op in JavaScript). -/
def spreadOpt (a : ExtendedParams) : Option ExtendedParams → ExtendedParams
  | none => a
  | some b => spread2 a b

/-- An object literal is well formed: its keys are pairwise distinct. -/
def WFParams {α : Type} (m : List (String × α)) : Prop :=
  List.Nodup (m.map Prod.fst)

instance {α : Type} (m : List (String × α)) : Decidable (WFParams m) :=
  inferInstanceAs (Decidable (List.Nodup (m.map Prod.fst)))

/-- First defined value of two optional lookups (`b ?? a` read right to
left); used to state per-key precedence of merged metadata. -/
def firstSome {α : Type} : Option α → Option α → Option α
  | some v, _ => some v
  | none, y => y

/-- Per-key lookup through a stack of metadata layers listed from lowest to
highest precedence: a later layer that defines the key wins. -/
def lastWriterLookup : List ExtendedParams → String → Option JSVal
  | [], _ => none
  | m :: rest, k => firstSome (lastWriterLookup rest k) (getKey m k)

/-- Reference to a report sink (`handleEmit`).  `defaultSink` is the
library's `defaultHandleEmit` (a `console.error` wrapper, which never
throws); `custom id` is a caller-supplied handler, identified by the
reference identity of the supplied function. -/
inductive SinkRef where
  | defaultSink : SinkRef
  | custom : Nat → SinkRef
  deriving DecidableEq, Repr

/-- Identity of one synthesized error class (`createErrorClass` result).
`clsId` models the JavaScript reference identity of the fresh class: its
first component is the allocation token of the root-context instantiation
that created it and its second the creation order within it. -/
structure ErrorClass where
  clsId : Nat × Nat
  name : String
  rootContext : String
  deriving DecidableEq, Repr

/-- One entry of the `ErrorTypeConfig` array given to `createError`. -/
structure ErrorTypeDecl where
  errorType : String
  createMessagePostfix : Option (JSVal → String)

/-- One value of the `errorsMap` record. -/
structure ErrorMapItem where
  errorClass : ErrorClass
  createMessagePostfix : Option (JSVal → String)

/-- The `errorsMap` record built per root-context instantiation. -/
abbrev ErrorMap := List (String × ErrorMapItem)

/-- The options record accepted by `createError`.  `handleEmit` is doubly
optional to mirror JavaScript: the outer `none` means the key is absent
from the object (so `{...defaultErrorOptions, ...options}` keeps the
default), `some none` means the key is present with value `undefined`
(which overrides the default on spread). -/
structure CreateErrorOptions where
  handleEmit : Option (Option SinkRef)
  extendedParams : Option ExtendedParams

/-- The per-call options of a feature-handle invocation
(`{ originalError?, extendedParams? }`). -/
structure ErrorFnOptions where
  originalError : JSVal
  extendedParams : Option ExtendedParams

/-- `createContextedMessage` from the source. -/
def createContextedMessage (contextPath : String) (featureName : String) (message : String) : String :=
  contextPath ++ "/" ++ featureName ++ ": " ++ message

/-- `options?.originalError`: the cause of a feature-handle invocation, or
`undefined` when the options object is absent. -/
def origErrOf : Option ErrorFnOptions → JSVal
  | none => JSVal.undefined
  | some o => o.originalError

/-- The message postfix computed by `createNewErrorObject`:
`options?.originalError && errorMapItem?.createMessagePostfix ?
errorMapItem.createMessagePostfix(options?.originalError) : ""`. -/
def computeMessagePostfix (errorMapItem : Option ErrorMapItem) (originalError : JSVal) : String :=
  if truthy originalError then
    match errorMapItem with
    | some item =>
        match item.createMessagePostfix with
        | some f => f originalError
        | none => ""
    | none => ""
  else ""

/-- The fields of a constructed `ConwayError` instance.  `name`,
`rootContext` come from the synthesized class, `contextsChunk` is the full
context path, `feature` is assigned right after construction, and `clsId`
records which synthesized class built the instance (the JavaScript
`instanceof`-relevant identity). -/
structure ErrorValue where
  name : String
  rootContext : String
  contextsChunk : String
  message : String
  originalError : JSVal
  extendedParams : Option ExtendedParams
  feature : String
  clsId : Nat × Nat
  deriving DecidableEq, Repr

/-- One invocation of a report sink: which handler was called, with which
error object and which merged extended params. -/
structure SinkCall where
  sink : SinkRef
  err : ErrorValue
  params : ExtendedParams
  deriving DecidableEq, Repr

/-- The value produced by invoking a feature handle: the error object
together with what its `emit` closure captured (the resolved sink, the
feature-level merged params and the construction-time
`options?.extendedParams`). -/
structure ConstructedError where
  error : ErrorValue
  emitSink : Option SinkRef
  emitFeatureParams : ExtendedParams
  emitCtorParams : Option ExtendedParams
  deriving DecidableEq, Repr

/-- The state captured by one root-context instantiation: the `errorsMap`,
the `UnknownError` class and the resolved `_options.handleEmit`. -/
structure RootEnv where
  errorsMap : ErrorMap
  unknownError : ErrorClass
  sink : Option SinkRef

/-- A context node (`_createErrorContext` closure state): the accumulated
path and the accumulated extended params. -/
structure ErrorContext where
  contextName : String
  contextExtendedParams : ExtendedParams
  deriving DecidableEq, Repr

/-- A feature handle (`_createErrorFeature` closure state). -/
structure FeatureHandle where
  featureName : String
  contextName : String
  featureContextExtendedParams : ExtendedParams
  deriving DecidableEq, Repr

/-- The `errorTypes.reduce` loop building `errorsMap`: each declaration gets
a fresh class (`createErrorClass(errorType, contextName)`, numbered by `i`
within allocation token `token`) and is assigned at key `errorType`,
overwriting any earlier declaration of the same type. -/
def buildErrorsMapAux (token : Nat) (contextName : String) : Nat → List ErrorTypeDecl → ErrorMap → ErrorMap
  | _, [], acc => acc
  | i, d :: rest, acc =>
      buildErrorsMapAux token contextName (i + 1) rest
        (setKey acc d.errorType ⟨⟨⟨token, i⟩, d.errorType, contextName⟩, d.createMessagePostfix⟩)

/-- `errorsMap` for one root-context instantiation. -/
def buildErrorsMap (token : Nat) (contextName : String) (types : List ErrorTypeDecl) : ErrorMap :=
  buildErrorsMapAux token contextName 0 types []

/-- `{...defaultErrorOptions, ...options}.handleEmit`: the default sink
survives unless the options object itself carries a `handleEmit` key
(possibly with value `undefined`). -/
def resolveHandleEmit : Option CreateErrorOptions → Option SinkRef
  | none => some SinkRef.defaultSink
  | some o =>
      match o.handleEmit with
      | none => some SinkRef.defaultSink
      | some v => v

/-- `createError(errorTypes?, options?)` applied to a root context name:
`createError(...)(contextName, extendedParams)`.  `token` is the allocation
token of this instantiation, making the freshness of the synthesized
classes explicit; distinct instantiations receive distinct tokens.  Returns
the captured instantiation state and the root context node. -/
def createError (errorTypes : Option (List ErrorTypeDecl)) (options : Option CreateErrorOptions)
    (token : Nat) (contextName : String) (extendedParams : ExtendedParams) : RootEnv × ErrorContext :=
  let initialExtendedParams := (Option.bind options (fun o => o.extendedParams)).getD []
  let outerExtendedParams := spread2 initialExtendedParams extendedParams
  let types := errorTypes.getD []
  let errorsMap := buildErrorsMap token contextName types
  let unknownError : ErrorClass := ⟨⟨token, types.length⟩, "UnknownError", contextName⟩
  (⟨errorsMap, unknownError, resolveHandleEmit options⟩, ⟨contextName, outerExtendedParams⟩)

/-- `context.subcontext(childContextName, extendedParams)`: a fresh node
with the child name appended to the path and the child params spread over
the parent params; the parent node is not touched. -/
def subcontext (ctx : ErrorContext) (childContextName : String) (extendedParams : ExtendedParams) : ErrorContext :=
  ⟨ctx.contextName ++ "/" ++ childContextName, spread2 ctx.contextExtendedParams extendedParams⟩

/-- `context.feature(childFeatureName, extendedParams)`: a feature handle
closing over the context path and the feature-level merged params. -/
def feature (ctx : ErrorContext) (childFeatureName : String) (extendedParams : ExtendedParams) : FeatureHandle :=
  ⟨childFeatureName, ctx.contextName, spread2 ctx.contextExtendedParams extendedParams⟩

/-- `createNewErrorObject(errorType, message, options?)`: the body of a
feature handle.  The second component of the result lists the sink
invocations performed during construction; the construction path of the
source contains no `handleEmit` call (the `emit` closure is only defined,
not invoked) and no `throw`, so it is empty. -/
def createNewErrorObject (env : RootEnv) (fh : FeatureHandle) (errorType : String)
    (message : String) (options : Option ErrorFnOptions) : ConstructedError × List SinkCall :=
  let errorMapItem := getKey env.errorsMap errorType
  let origErr := origErrOf options
  let messagePostfix := computeMessagePostfix errorMapItem origErr
  let cls :=
    match errorMapItem with
    | some item => item.errorClass
    | none => env.unknownError
  let ctorParams := Option.bind options (fun o => o.extendedParams)
  let error : ErrorValue :=
    ⟨cls.name, cls.rootContext, fh.contextName,
      createContextedMessage fh.contextName fh.featureName (message ++ messagePostfix),
      origErr, ctorParams, fh.featureName, cls.clsId⟩
  (⟨error, env.sink, fh.featureContextExtendedParams, ctorParams⟩, [])

/-- The `_extendedParams` computed by the `emit` closure:
`{...featureContextExtendedParams, ...options?.extendedParams, ...extendedParams}`. -/
def mergedEmitParams (c : ConstructedError) (extendedParams : ExtendedParams) : ExtendedParams :=
  spread2 (spreadOpt c.emitFeatureParams c.emitCtorParams) extendedParams

/-- Running the `emit` closure (`error.emit(extendedParams?)`): merge the
captured layers with the call-time params and invoke
`_options.handleEmit?.(error, _extendedParams)` — one sink call when a
handler is resolved, none otherwise, and never an exception. -/
def runEmit (c : ConstructedError) (extendedParams : ExtendedParams) : List SinkCall :=
  match c.emitSink with
  | none => []
  | some s => [⟨s, c.error, mergedEmitParams c extendedParams⟩]

/-- Iterated `subcontext` calls below a node, innermost last. -/
def buildSubcontexts (ctx : ErrorContext) : List (String × ExtendedParams) → ErrorContext
  | [] => ctx
  | (n, m) :: rest => buildSubcontexts (subcontext ctx n m) rest

/-- The path segments of a root plus subcontext names joined by `/`. -/
def joinPath (root : String) (subs : List String) : String :=
  subs.foldl (fun acc s => acc ++ "/" ++ s) root

/-- Universe of JavaScript values passed to the `isConwayError` type guard:
primitives, native `Error` objects not produced by this library, and
instances produced by the library's construction path. -/
inductive JSAny where
  | undefined : JSAny
  | null : JSAny
  | boolean : Bool → JSAny
  | number : Int → JSAny
  | str : String → JSAny
  | nativeError : String → String → JSAny
  | conwayError : ErrorValue → JSAny
  deriving DecidableEq, Repr

/-- `typeof error === "object"` (note: `typeof null` is `"object"` in
JavaScript). -/
def typeofIsObject : JSAny → Bool
  | JSAny.undefined => false
  | JSAny.null => true
  | JSAny.boolean _ => false
  | JSAny.number _ => false
  | JSAny.str _ => false
  | JSAny.nativeError _ _ => true
  | JSAny.conwayError _ => true

/-- `error instanceof ConwayError`: only values built by the library's
construction path have a synthesized class (which extends `ConwayError`) in
their prototype chain. -/
def instanceofConwayError : JSAny → Bool
  | JSAny.conwayError _ => true
  | _ => false

/-- `isConwayError` from the source:
`typeof error === "object" && error instanceof ConwayError`. -/
def isConwayError (error : JSAny) : Bool :=
  typeofIsObject error && instanceofConwayError error

/-- Lookup after a property assignment: the assigned key reads the new
value, all other keys are unaffected. -/
theorem getKey_setKey {α : Type} (m : List (String × α)) (k0 : String) (v : α) (k : String) :
    getKey (setKey m k0 v) k = if k = k0 then some v else getKey m k := by
  induction m with
  | nil =>
      simp only [setKey, getKey]
      by_cases h : k = k0
      · simp [h]
      · simp [h, Ne.symm h]
  | cons p rest ih =>
      obtain ⟨k1, v1⟩ := p
      simp only [setKey]
      by_cases h1 : k1 = k0
      · subst h1
        simp only [if_pos rfl, getKey]
        by_cases h : k = k1
        · simp [h]
        · simp [h, Ne.symm h]
      · simp only [if_neg h1, getKey, ih]
        by_cases h : k1 = k
        · subst h
          simp [h1]
        · simp [h]

/-- A key that never occurs in the list reads as absent. -/
theorem getKey_eq_none_of_not_mem {α : Type} (m : List (String × α)) (k : String)
    (h : k ∉ m.map Prod.fst) : getKey m k = none := by
  induction m with
  | nil => rfl
  | cons p rest ih =>
      obtain ⟨k0, v0⟩ := p
      simp only [List.map_cons, List.mem_cons] at h
      push_neg at h
      have hne : ¬ k0 = k := fun hh => h.1 hh.symm
      simp [getKey, hne, ih h.2]

/-- Per-key reading of a spread `{...a, ...b}` (for a well-formed `b`): a
key defined by `b` wins, otherwise `a` answers. -/
theorem getKey_spread2 (b a : ExtendedParams) (k : String) (hb : WFParams b) :
    getKey (spread2 a b) k = firstSome (getKey b k) (getKey a k) := by
  induction b generalizing a with
  | nil => simp [spread2, getKey, firstSome]
  | cons p rest ih =>
      obtain ⟨k0, v0⟩ := p
      have hb2 : (k0 :: rest.map Prod.fst).Nodup := hb
      have hcons := List.nodup_cons.mp hb2
      have hrest : WFParams rest := hcons.2
      show getKey (spread2 (setKey a k0 v0) rest) k = _
      rw [ih _ hrest, getKey_setKey]
      by_cases h : k = k0
      · subst h
        rw [getKey_eq_none_of_not_mem rest _ hcons.1]
        simp [getKey, firstSome]
      · have hne : ¬ k0 = k := fun hh => h hh.symm
        simp [getKey, firstSome, h, hne]

theorem firstSome_assoc {α : Type} (a b c : Option α) :
    firstSome (firstSome a b) c = firstSome a (firstSome b c) := by
  cases a <;> rfl

/-- The accumulated path of iterated subcontexts is the `/`-join of the
segment names. -/
theorem buildSubcontexts_contextName (subs : List (String × ExtendedParams)) (ctx : ErrorContext) :
    (buildSubcontexts ctx subs).contextName = joinPath ctx.contextName (subs.map Prod.fst) := by
  induction subs generalizing ctx with
  | nil => rfl
  | cons p rest ih =>
      obtain ⟨n, m⟩ := p
      show (buildSubcontexts (subcontext ctx n m) rest).contextName = _
      rw [ih]
      rfl

/-- Per-key reading of the metadata accumulated by iterated subcontexts:
the deepest layer defining the key wins, the starting node answers last. -/
theorem buildSubcontexts_getKey (subs : List (String × ExtendedParams)) (ctx : ErrorContext)
    (hw : ∀ p ∈ subs, WFParams p.2) (k : String) :
    getKey (buildSubcontexts ctx subs).contextExtendedParams k
      = firstSome (lastWriterLookup (subs.map Prod.snd) k) (getKey ctx.contextExtendedParams k) := by
  induction subs generalizing ctx with
  | nil => simp [buildSubcontexts, lastWriterLookup, firstSome]
  | cons p rest ih =>
      obtain ⟨n, m⟩ := p
      have hm : WFParams m := hw (n, m) (List.mem_cons_self _ _)
      have hrest : ∀ q ∈ rest, WFParams q.2 := fun q hq => hw q (List.mem_cons_of_mem _ hq)
      show getKey (buildSubcontexts (subcontext ctx n m) rest).contextExtendedParams k = _
      rw [ih _ hrest]
      show firstSome _ (getKey (spread2 ctx.contextExtendedParams m) k) = _
      rw [getKey_spread2 m _ k hm]
      simp only [List.map_cons, lastWriterLookup]
      rw [firstSome_assoc]

/-- Every entry of the errors map built by the `reduce` loop is a class
named after its key, rooted at the instantiation's context name and
allocated under the instantiation's token. -/
theorem buildErrorsMapAux_spec (token : Nat) (c : String) (rest : List ErrorTypeDecl) :
    ∀ (i : Nat) (acc : ErrorMap),
      (∀ k item, getKey acc k = some item →
        item.errorClass.name = k ∧ item.errorClass.rootContext = c ∧ item.errorClass.clsId.1 = token) →
      ∀ k item, getKey (buildErrorsMapAux token c i rest acc) k = some item →
        item.errorClass.name = k ∧ item.errorClass.rootContext = c ∧ item.errorClass.clsId.1 = token := by
  induction rest with
  | nil => intro i acc h; exact h
  | cons d ds ih =>
      intro i acc h
      apply ih
      intro k item hget
      rw [getKey_setKey] at hget
      by_cases hk : k = d.errorType
      · rw [if_pos hk] at hget
        cases hget
        exact ⟨hk.symm, rfl, rfl⟩
      · rw [if_neg hk] at hget
        exact h k item hget

theorem buildErrorsMap_spec (token : Nat) (c : String) (types : List ErrorTypeDecl) (k : String)
    (item : ErrorMapItem) (h : getKey (buildErrorsMap token c types) k = some item) :
    item.errorClass.name = k ∧ item.errorClass.rootContext = c ∧ item.errorClass.clsId.1 = token := by
  refine buildErrorsMapAux_spec token c types 0 [] ?_ k item h
  intro k' item' h'
  cases h'

/-- Keys not declared in the remaining list are untouched by the `reduce`
loop. -/
theorem buildErrorsMapAux_notMem (token : Nat) (c : String) (rest : List ErrorTypeDecl) :
    ∀ (i : Nat) (acc : ErrorMap) (k : String), k ∉ rest.map (fun d => d.errorType) →
      getKey (buildErrorsMapAux token c i rest acc) k = getKey acc k := by
  induction rest with
  | nil => intro i acc k _; rfl
  | cons d ds ih =>
      intro i acc k hk
      simp only [List.map_cons, List.mem_cons] at hk
      push_neg at hk
      show getKey (buildErrorsMapAux token c (i + 1) ds _) k = _
      rw [ih _ _ _ hk.2, getKey_setKey, if_neg hk.1]

/-- The `reduce` loop over a concatenation processes the prefix first. -/
theorem buildErrorsMapAux_append (token : Nat) (c : String) (xs ys : List ErrorTypeDecl) :
    ∀ (i : Nat) (acc : ErrorMap),
      buildErrorsMapAux token c i (xs ++ ys) acc
        = buildErrorsMapAux token c (i + xs.length) ys (buildErrorsMapAux token c i xs acc) := by
  induction xs with
  | nil => intro i acc; simp [buildErrorsMapAux]
  | cons d ds ih =>
      intro i acc
      show buildErrorsMapAux token c (i + 1) (ds ++ ys) _ = _
      rw [ih]
      have harith : i + 1 + ds.length = i + (d :: ds).length := by
        simp only [List.length_cons]
        omega
      rw [harith]
      rfl

/-- The entry stored for a declared type is the one synthesized from its
last declaration, allocated at that declaration's position. -/
theorem buildErrorsMap_last (token : Nat) (c : String) (l1 l2 : List ErrorTypeDecl)
    (d : ErrorTypeDecl) (k : String) (hd : d.errorType = k)
    (hl2 : k ∉ l2.map (fun x => x.errorType)) :
    getKey (buildErrorsMap token c (l1 ++ d :: l2)) k
      = some ⟨⟨⟨token, l1.length⟩, k, c⟩, d.createMessagePostfix⟩ := by
  unfold buildErrorsMap
  rw [buildErrorsMapAux_append]
  show getKey (buildErrorsMapAux token c (0 + l1.length + 1) l2 (setKey _ d.errorType _)) k = _
  rw [buildErrorsMapAux_notMem _ _ _ _ _ _ hl2, hd, getKey_setKey, if_pos rfl]
  simp [hd, Nat.zero_add]

/-- The class behind any constructed error value carries the allocation
token of its root-context instantiation. -/
theorem constructed_clsId_token (errorTypes : Option (List ErrorTypeDecl))
    (options : Option CreateErrorOptions) (token : Nat) (rootName : String)
    (rootParams : ExtendedParams) (fh : FeatureHandle) (k m : String) (o : Option ErrorFnOptions) :
    ((createNewErrorObject (createError errorTypes options token rootName rootParams).1 fh k m o).1).error.clsId.1
      = token := by
  cases h : getKey (buildErrorsMap token rootName (errorTypes.getD [])) k with
  | none => simp [createNewErrorObject, createError, h]
  | some item =>
      have hspec := buildErrorsMap_spec token rootName (errorTypes.getD []) k item h
      simp [createNewErrorObject, createError, h]
      exact hspec.2.2

/-- Claim C1: for every factory whose kind-declaration list is omitted or
empty, and more generally whenever the requested kind string is not among
the declared `errorType`s, the constructed error's `name` is
`"UnknownError"` (the `errorMapItem?.errorClass ?? UnknownError` fallback). -/
theorem c1_unknown_fallback (errorTypes : Option (List ErrorTypeDecl))
    (options : Option CreateErrorOptions) (token : Nat) (rootName : String)
    (rootParams : ExtendedParams) (fh : FeatureHandle) (k m : String) (o : Option ErrorFnOptions)
    (hk : k ∉ (errorTypes.getD []).map (fun d => d.errorType)) :
    ((createNewErrorObject (createError errorTypes options token rootName rootParams).1 fh k m o).1).error.name
      = "UnknownError" := by
  have hnone : getKey (buildErrorsMap token rootName (errorTypes.getD [])) k = none := by
    unfold buildErrorsMap
    rw [buildErrorsMapAux_notMem _ _ _ _ _ _ hk]
    rfl
  simp [createNewErrorObject, createError, hnone]

theorem c1_unknown_fallback_witness :
    ("AnyKind" ∉ ((none : Option (List ErrorTypeDecl)).getD []).map (fun d => d.errorType))
    ∧ ((createNewErrorObject (createError none none 0 "Ctx" []).1 ⟨"F", "Ctx", []⟩ "AnyKind" "msg" none).1).error.name
        = "UnknownError" :=
  ⟨by simp, c1_unknown_fallback none none 0 "Ctx" [] ⟨"F", "Ctx", []⟩ "AnyKind" "msg" none (by simp)⟩

/-- Claim C2: the message of a constructed error is the path segments
(root followed by the subcontext names) joined by `/`, then `/` and the
feature name, then `: ` and the message, with the optional postfix
appended after the message. -/
theorem c2_message_composition (env : RootEnv) (rootName : String) (rootParams : ExtendedParams)
    (subs : List (String × ExtendedParams)) (f : String) (fm : ExtendedParams)
    (k m : String) (o : Option ErrorFnOptions) :
    ((createNewErrorObject env (feature (buildSubcontexts ⟨rootName, rootParams⟩ subs) f fm) k m o).1).error.message
      = joinPath rootName (subs.map Prod.fst) ++ "/" ++ f ++ ": " ++ m
          ++ computeMessagePostfix (getKey env.errorsMap k) (origErrOf o) := by
  show createContextedMessage (buildSubcontexts ⟨rootName, rootParams⟩ subs).contextName f
      (m ++ computeMessagePostfix (getKey env.errorsMap k) (origErrOf o)) = _
  rw [buildSubcontexts_contextName]
  simp only [createContextedMessage, String.append_assoc]

/-- Claim C3, counterexample: the claim's suffix condition is "the cause is
present and neither `undefined` nor `null`".  With the cause `false` — which
satisfies that condition — and a declared suffix builder, the code still
appends no suffix, because the source guards on JavaScript truthiness
(`options?.originalError && ...`), not on presence. -/
theorem c3_falsy_cause_counterexample :
    (((createNewErrorObject
          (createError (some [⟨"E", some (fun _ => " SUFFIX")⟩]) none 0 "Ctx" []).1
          ⟨"F", "Ctx", []⟩ "E" "msg" (some ⟨JSVal.boolean false, none⟩)).1).error.message
        = "Ctx/F: msg")
    ∧ JSVal.boolean false ≠ JSVal.undefined
    ∧ JSVal.boolean false ≠ JSVal.null
    ∧ (Option.bind
        (getKey (createError (some [⟨"E", some (fun _ => " SUFFIX")⟩]) none 0 "Ctx" []).1.errorsMap "E")
        (fun it => it.createMessagePostfix)).isSome = true
    ∧ "Ctx/F: msg" ≠ "Ctx/F: msg SUFFIX" :=
  ⟨rfl, by decide, by decide, rfl, by decide⟩

/-- Claim C3, amended: a message suffix is appended iff
`extras.originalCause` is truthy (so not `undefined`, `null`, `false`, `0`
or the empty string) AND the resolved kind declared a
`messageSuffixBuilder`; in that case the suffix is the builder applied to
the cause, otherwise it is empty. -/
theorem c3_suffix_truthiness (env : RootEnv) (fh : FeatureHandle)
    (k m : String) (o : Option ErrorFnOptions) :
    ((createNewErrorObject env fh k m o).1).error.message
      = createContextedMessage fh.contextName fh.featureName
          (m ++ (if truthy (origErrOf o) then
              (match Option.bind (getKey env.errorsMap k) (fun it => it.createMessagePostfix) with
               | some bf => bf (origErrOf o)
               | none => "")
            else "")) := by
  show createContextedMessage fh.contextName fh.featureName
      (m ++ computeMessagePostfix (getKey env.errorsMap k) (origErrOf o)) = _
  unfold computeMessagePostfix
  cases getKey env.errorsMap k with
  | none => cases truthy (origErrOf o) <;> rfl
  | some it =>
      cases it.createMessagePostfix <;> cases truthy (origErrOf o) <;> rfl

/-- Claim C5: invoking a feature handle performs no sink invocation (the
second component, the list of sink calls made during construction, is
empty) and never fails: it is a total function and even an unknown kind
string produces a value, whose label is either the requested kind or the
`UnknownError` fallback. -/
theorem c5_construction_no_effects (errorTypes : Option (List ErrorTypeDecl))
    (options : Option CreateErrorOptions) (token : Nat) (rootName : String)
    (rootParams : ExtendedParams) (fh : FeatureHandle) (k m : String) (o : Option ErrorFnOptions) :
    (createNewErrorObject (createError errorTypes options token rootName rootParams).1 fh k m o).2 = []
    ∧ (((createNewErrorObject (createError errorTypes options token rootName rootParams).1 fh k m o).1).error.name = k
        ∨ ((createNewErrorObject (createError errorTypes options token rootName rootParams).1 fh k m o).1).error.name
            = "UnknownError") := by
  refine ⟨rfl, ?_⟩
  cases h : getKey (buildErrorsMap token rootName (errorTypes.getD [])) k with
  | none =>
      right
      simp [createNewErrorObject, createError, h]
  | some item =>
      left
      have hspec := buildErrorsMap_spec token rootName (errorTypes.getD []) k item h
      simp [createNewErrorObject, createError, h]
      exact hspec.1

/-- Claim C8: `isConwayError` answers `true` on every value produced by the
construction path and `false` on `null`, `undefined`, booleans, numbers,
strings, and native errors not produced by this library. -/
theorem c8_identity_predicate (env : RootEnv) (fh : FeatureHandle) (k m : String)
    (o : Option ErrorFnOptions) :
    isConwayError (JSAny.conwayError ((createNewErrorObject env fh k m o).1).error) = true
    ∧ isConwayError JSAny.null = false
    ∧ isConwayError JSAny.undefined = false
    ∧ (∀ bv : Bool, isConwayError (JSAny.boolean bv) = false)
    ∧ (∀ n : Int, isConwayError (JSAny.number n) = false)
    ∧ (∀ s : String, isConwayError (JSAny.str s) = false)
    ∧ (∀ nm ms : String, isConwayError (JSAny.nativeError nm ms) = false) :=
  ⟨rfl, rfl, rfl, fun _ => rfl, fun _ => rfl, fun _ => rfl, fun _ _ => rfl⟩

/-- Claim C9: `subcontext` returns a fresh node whose path appends
`"/" ++ childName` to the parent's path and whose metadata spreads the
child metadata over the parent's; names are taken verbatim (no escaping),
so a root `""` with subcontext `""` yields the path `"/"`.  The parent is
a value and is never mutated. -/
theorem c9_subcontext_fresh_node :
    (∀ (ctx : ErrorContext) (n : String) (m : ExtendedParams),
      subcontext ctx n m
        = ⟨ctx.contextName ++ "/" ++ n, spread2 ctx.contextExtendedParams m⟩)
    ∧ (subcontext (createError none none 0 "" []).2 "" []).contextName = "/" :=
  ⟨fun _ _ _ => rfl, rfl⟩

/-- Claim C4: `report` (the `emit` closure) invokes the sink with merged
metadata whose per-key precedence, lowest to highest, is factory
`extendedParams` < root-context params < subcontext params (deepest last)
< feature params < construction-time `options.extendedParams` < call-time
params: the union of all keys, the last writer winning per key. -/
theorem c4_metadata_precedence (errorTypes : Option (List ErrorTypeDecl)) (s : SinkRef)
    (b : ExtendedParams) (token : Nat) (rootName : String) (rm : ExtendedParams)
    (subs : List (String × ExtendedParams)) (f : String) (fm : ExtendedParams)
    (kind msg : String) (cause : JSVal) (em ct : ExtendedParams)
    (hrm : WFParams rm) (hsubs : ∀ p ∈ subs, WFParams p.2) (hfm : WFParams fm)
    (hem : WFParams em) (hct : WFParams ct) :
    runEmit ((createNewErrorObject (createError errorTypes (some ⟨some (some s), some b⟩) token rootName rm).1
        (feature (buildSubcontexts (createError errorTypes (some ⟨some (some s), some b⟩) token rootName rm).2 subs) f fm)
        kind msg (some ⟨cause, some em⟩)).1) ct
      = [⟨s,
          ((createNewErrorObject (createError errorTypes (some ⟨some (some s), some b⟩) token rootName rm).1
            (feature (buildSubcontexts (createError errorTypes (some ⟨some (some s), some b⟩) token rootName rm).2 subs) f fm)
            kind msg (some ⟨cause, some em⟩)).1).error,
          mergedEmitParams ((createNewErrorObject (createError errorTypes (some ⟨some (some s), some b⟩) token rootName rm).1
            (feature (buildSubcontexts (createError errorTypes (some ⟨some (some s), some b⟩) token rootName rm).2 subs) f fm)
            kind msg (some ⟨cause, some em⟩)).1) ct⟩]
    ∧ ∀ key : String,
        getKey (mergedEmitParams ((createNewErrorObject (createError errorTypes (some ⟨some (some s), some b⟩) token rootName rm).1
            (feature (buildSubcontexts (createError errorTypes (some ⟨some (some s), some b⟩) token rootName rm).2 subs) f fm)
            kind msg (some ⟨cause, some em⟩)).1) ct) key
          = firstSome (getKey ct key)
              (firstSome (getKey em key)
                (firstSome (getKey fm key)
                  (firstSome (lastWriterLookup (subs.map Prod.snd) key)
                    (firstSome (getKey rm key) (getKey b key))))) := by
  refine ⟨rfl, ?_⟩
  intro key
  show getKey (spread2 (spread2 (spread2
      (buildSubcontexts (createError errorTypes (some ⟨some (some s), some b⟩) token rootName rm).2 subs).contextExtendedParams
      fm) em) ct) key = _
  rw [getKey_spread2 ct _ key hct, getKey_spread2 em _ key hem, getKey_spread2 fm _ key hfm,
      buildSubcontexts_getKey subs _ hsubs key]
  rw [show (createError errorTypes (some ⟨some (some s), some b⟩) token rootName rm).2.contextExtendedParams
      = spread2 b rm from rfl]
  rw [getKey_spread2 rm b key hrm]

theorem c4_metadata_precedence_witness :
    WFParams [("shared", JSVal.str "b")]
    ∧ WFParams [("shared", JSVal.str "c")]
    ∧ WFParams [("shared", JSVal.str "d")]
    ∧ getKey (mergedEmitParams ((createNewErrorObject
          (createError none (some ⟨some (some (SinkRef.custom 7)), some [("shared", JSVal.str "a")]⟩) 0 "Ctx" [("shared", JSVal.str "b")]).1
          (feature (buildSubcontexts (createError none (some ⟨some (some (SinkRef.custom 7)), some [("shared", JSVal.str "a")]⟩) 0 "Ctx" [("shared", JSVal.str "b")]).2 [])
            "F" [("shared", JSVal.str "c")])
          "E" "m" (some ⟨JSVal.undefined, some []⟩)).1) [("shared", JSVal.str "d")]) "shared"
        = some (JSVal.str "d") := by
  have h := (c4_metadata_precedence none (SinkRef.custom 7) [("shared", JSVal.str "a")] 0 "Ctx"
      [("shared", JSVal.str "b")] [] "F" [("shared", JSVal.str "c")] "E" "m" JSVal.undefined
      [] [("shared", JSVal.str "d")] (by decide) (by simp) (by decide) (by decide) (by decide)).2 "shared"
  exact ⟨by decide, by decide, by decide, h.trans (by rfl)⟩

/-- Claim C6: when the factory options carry no `handleEmit` key (or no
options object was given at all), `report` resolves to the library's
non-throwing default sink and each call produces exactly one sink
invocation, carrying the unmutated error value and the deterministically
merged metadata; the core never fails for lack of a sink. -/
theorem c6_report_default_sink (errorTypes : Option (List ErrorTypeDecl))
    (options : Option CreateErrorOptions)
    (h : Option.bind options (fun oo => oo.handleEmit) = none)
    (token : Nat) (rootName : String) (rootParams : ExtendedParams)
    (fh : FeatureHandle) (k m : String) (o : Option ErrorFnOptions) (p : ExtendedParams) :
    runEmit ((createNewErrorObject (createError errorTypes options token rootName rootParams).1 fh k m o).1) p
      = [⟨SinkRef.defaultSink,
          ((createNewErrorObject (createError errorTypes options token rootName rootParams).1 fh k m o).1).error,
          mergedEmitParams ((createNewErrorObject (createError errorTypes options token rootName rootParams).1 fh k m o).1) p⟩] := by
  have hs : resolveHandleEmit options = some SinkRef.defaultSink := by
    cases options with
    | none => rfl
    | some oo =>
        have h' : oo.handleEmit = none := h
        simp [resolveHandleEmit, h']
  have hsink : ((createNewErrorObject (createError errorTypes options token rootName rootParams).1 fh k m o).1).emitSink
      = resolveHandleEmit options := rfl
  unfold runEmit
  rw [hsink, hs]

theorem c6_report_default_sink_witness :
    (Option.bind (none : Option CreateErrorOptions) (fun oo => oo.handleEmit) = none)
    ∧ runEmit ((createNewErrorObject (createError none none 0 "Ctx" []).1 ⟨"F", "Ctx", []⟩ "k" "m" none).1) []
        = [⟨SinkRef.defaultSink,
            ((createNewErrorObject (createError none none 0 "Ctx" []).1 ⟨"F", "Ctx", []⟩ "k" "m" none).1).error,
            mergedEmitParams ((createNewErrorObject (createError none none 0 "Ctx" []).1 ⟨"F", "Ctx", []⟩ "k" "m" none).1) []⟩] :=
  ⟨rfl, c6_report_default_sink none none rfl 0 "Ctx" [] ⟨"F", "Ctx", []⟩ "k" "m" none []⟩

/-- Claim C7: two root-context instantiations with distinct allocation
tokens — two independently created factories, or two root contexts of the
same factory (even with the same options and hence the same resolved
sink) — share no class identities: every constructed error carries its own
instantiation's token, so the two identity sets are disjoint.  Reporting
an error constructed under the first instantiation invokes exactly that
instantiation's own resolved sink and nothing else — in particular never a
sink that differs from it, such as an independently configured factory's —
and the merged metadata it reports is computed solely from that
instantiation's own captured layers (feature-level params, construction
params, call-time params), so no metadata state of the other instantiation
can reach it. -/
theorem c7_isolation (typesA : Option (List ErrorTypeDecl)) (optsA : Option CreateErrorOptions)
    (tA : Nat) (rootA : String) (rmA : ExtendedParams)
    (typesB : Option (List ErrorTypeDecl)) (optsB : Option CreateErrorOptions)
    (tB : Nat) (rootB : String) (rmB : ExtendedParams)
    (sA : SinkRef) (hsA : resolveHandleEmit optsA = some sA) (ht : tA ≠ tB)
    (fhA : FeatureHandle) (kA mA : String) (oA : Option ErrorFnOptions)
    (fhB : FeatureHandle) (kB mB : String) (oB : Option ErrorFnOptions)
    (p : ExtendedParams) :
    ((createNewErrorObject (createError typesA optsA tA rootA rmA).1 fhA kA mA oA).1).error.clsId.1 = tA
    ∧ ((createNewErrorObject (createError typesB optsB tB rootB rmB).1 fhB kB mB oB).1).error.clsId.1 = tB
    ∧ ((createNewErrorObject (createError typesA optsA tA rootA rmA).1 fhA kA mA oA).1).error.clsId
        ≠ ((createNewErrorObject (createError typesB optsB tB rootB rmB).1 fhB kB mB oB).1).error.clsId
    ∧ (runEmit ((createNewErrorObject (createError typesA optsA tA rootA rmA).1 fhA kA mA oA).1) p).map SinkCall.sink
        = [sA]
    ∧ (∀ sB : SinkRef, sB ≠ sA →
        sB ∉ (runEmit ((createNewErrorObject (createError typesA optsA tA rootA rmA).1 fhA kA mA oA).1) p).map SinkCall.sink)
    ∧ (∀ q : ExtendedParams,
        mergedEmitParams ((createNewErrorObject (createError typesA optsA tA rootA rmA).1 fhA kA mA oA).1) q
          = spread2 (spreadOpt fhA.featureContextExtendedParams (Option.bind oA (fun x => x.extendedParams))) q) := by
  have hA := constructed_clsId_token typesA optsA tA rootA rmA fhA kA mA oA
  have hB := constructed_clsId_token typesB optsB tB rootB rmB fhB kB mB oB
  have hmap : (runEmit ((createNewErrorObject (createError typesA optsA tA rootA rmA).1 fhA kA mA oA).1) p).map SinkCall.sink
      = [sA] := by
    have hsink : ((createNewErrorObject (createError typesA optsA tA rootA rmA).1 fhA kA mA oA).1).emitSink
        = resolveHandleEmit optsA := rfl
    unfold runEmit
    rw [hsink, hsA]
    rfl
  refine ⟨hA, hB, ?_, hmap, ?_, fun _ => rfl⟩
  · intro hEq
    exact ht (by rw [← hA, ← hB, hEq])
  · intro sB hne
    rw [hmap]
    simp [hne]

theorem c7_isolation_witness :
    (0 : Nat) ≠ 1
    ∧ ((createNewErrorObject (createError none none 0 "A" []).1 ⟨"F", "A", []⟩ "k" "m" none).1).error.clsId.1 = 0
    ∧ ((createNewErrorObject (createError none none 1 "B" []).1 ⟨"G", "B", []⟩ "k" "m" none).1).error.clsId.1 = 1
    ∧ ((createNewErrorObject (createError none none 0 "A" []).1 ⟨"F", "A", []⟩ "k" "m" none).1).error.clsId
        ≠ ((createNewErrorObject (createError none none 1 "B" []).1 ⟨"G", "B", []⟩ "k" "m" none).1).error.clsId
    ∧ (runEmit ((createNewErrorObject (createError none none 0 "A" []).1 ⟨"F", "A", []⟩ "k" "m" none).1) []).map SinkCall.sink
        = [SinkRef.defaultSink] := by
  have h := c7_isolation none none 0 "A" [] none none 1 "B" []
      SinkRef.defaultSink rfl (by decide)
      ⟨"F", "A", []⟩ "k" "m" none ⟨"G", "B", []⟩ "k" "m" none []
  exact ⟨by decide, h.1, h.2.1, h.2.2.1, h.2.2.2.1⟩

/-- Claim C10: when the kind-declaration list contains several entries with
the same `errorType`, the `reduce` loop lets the last one win: the errors
map holds the class synthesized from the final entry (allocated at its
position) together with its `createMessagePostfix`, and errors requested
with that kind are built from that class. -/
theorem c10_last_duplicate_wins (l1 l2 : List ErrorTypeDecl) (d : ErrorTypeDecl)
    (options : Option CreateErrorOptions) (token : Nat) (rootName : String)
    (rootParams : ExtendedParams) (k : String)
    (hd : d.errorType = k) (hl2 : k ∉ l2.map (fun x => x.errorType))
    (fh : FeatureHandle) (m : String) (o : Option ErrorFnOptions) :
    getKey (createError (some (l1 ++ d :: l2)) options token rootName rootParams).1.errorsMap k
      = some ⟨⟨⟨token, l1.length⟩, k, rootName⟩, d.createMessagePostfix⟩
    ∧ ((createNewErrorObject (createError (some (l1 ++ d :: l2)) options token rootName rootParams).1 fh k m o).1).error.name
        = k
    ∧ ((createNewErrorObject (createError (some (l1 ++ d :: l2)) options token rootName rootParams).1 fh k m o).1).error.clsId
        = ⟨token, l1.length⟩ := by
  have hget : getKey (buildErrorsMap token rootName (l1 ++ d :: l2)) k
      = some ⟨⟨⟨token, l1.length⟩, k, rootName⟩, d.createMessagePostfix⟩ :=
    buildErrorsMap_last token rootName l1 l2 d k hd hl2
  refine ⟨hget, ?_, ?_⟩
  · simp [createNewErrorObject, createError, hget]
  · simp [createNewErrorObject, createError, hget]

theorem c10_last_duplicate_wins_witness :
    ((⟨"E", some (fun _ => " S2")⟩ : ErrorTypeDecl).errorType = "E")
    ∧ ("E" ∉ ([] : List ErrorTypeDecl).map (fun x => x.errorType))
    ∧ getKey (createError (some [⟨"E", none⟩, ⟨"E", some (fun _ => " S2")⟩]) none 0 "Ctx" []).1.errorsMap "E"
        = some ⟨⟨⟨0, 1⟩, "E", "Ctx"⟩, some (fun _ => " S2")⟩
    ∧ ((createNewErrorObject (createError (some [⟨"E", none⟩, ⟨"E", some (fun _ => " S2")⟩]) none 0 "Ctx" []).1
        ⟨"F", "Ctx", []⟩ "E" "m" none).1).error.clsId = ⟨0, 1⟩ := by
  have h := c10_last_duplicate_wins [⟨"E", none⟩] [] ⟨"E", some (fun _ => " S2")⟩ none 0 "Ctx" [] "E"
      rfl (by simp) ⟨"F", "Ctx", []⟩ "m" none
  exact ⟨rfl, by simp, h.1, h.2.2⟩

end Conway

